import Mathlib

/-!
Shallow embedding of the flowchart editor core
(`src/frontend_flow_chart_builder/src/FlowchartBuilder.js`):
the node/edge model, the undo/redo history stacks, the pointer gesture
handlers and the pan/zoom coordinate transform.  Numbers are modelled as
rationals (exact arithmetic in place of JS doubles); React state updates
become explicit state passing on a `FlowState` record.
-/

namespace Flowchart

/-- A 2-D point, used for node positions and offsets. -/
structure Pos where
  x : ℚ
  y : ℚ
deriving Repr, DecidableEq

/-- The `data` payload of a node (`{ label }`). -/
structure NodeData where
  label : String
deriving Repr, DecidableEq

/-- A flowchart node: `{ id, type, position, data: { label } }`. -/
structure Node where
  id : String
  type : String
  position : Pos
  data : NodeData
deriving Repr, DecidableEq

/-- A directed edge `{ id, from, to }`.  The JS fields `from`/`to` are Lean
keywords and are rendered `fromId`/`toId`. -/
structure Edge where
  id : String
  fromId : String
  toId : String
deriving Repr, DecidableEq

/-- One history entry: a copy of `{ nodes, edges }` at a point in time. -/
structure Snapshot where
  nodes : List Node
  edges : List Edge
deriving Repr, DecidableEq

/-- The pan/zoom transform `{ x, y, k }`. -/
structure Transform where
  x : ℚ
  y : ℚ
  k : ℚ
deriving Repr, DecidableEq

/-- The component state: the `useState` hooks of `FlowchartBuilder`. -/
structure FlowState where
  nodes : List Node
  edges : List Edge
  selectedNode : Option String
  connecting : Option String
  history : List Snapshot
  future : List Snapshot
  transform : Transform
deriving Repr, DecidableEq

/-- The initial node (`useState` initializer, lines 117-124). -/
def startNode : Node :=
  { id := "node-0", type := "default"
    position := { x := 220, y := 170 }
    data := { label := "Start Node" } }

/-- The initial component state. -/
def initialState : FlowState :=
  { nodes := [startNode], edges := []
    selectedNode := none, connecting := none
    history := [], future := []
    transform := { x := 0, y := 0, k := 1 } }

/-- `pushHistory` as invoked from a closure whose captured `nodes`/`edges`
are `snap`: it appends `snap` to `history` and clears `future`
(`setHistory(h => [...h, deepCopy])` then `setFuture([])`, lines 140-143).
Deep copying is value semantics here. -/
def pushHistoryWith (snap : Snapshot) (s : FlowState) : FlowState :=
  { s with history := s.history ++ [snap], future := [] }

/-- `pushHistory` called with the current state in scope (the direct call
sites: add node, complete connect, node update, delete key). -/
def pushHistory (s : FlowState) : FlowState :=
  pushHistoryWith ⟨s.nodes, s.edges⟩ s

/-- `handleUndo` (lines 146-154): no-op on empty history; otherwise the last
history entry becomes current, the pre-undo `{nodes, edges}` is consed onto
`future`, and the selection is cleared. -/
def handleUndo (s : FlowState) : FlowState :=
  if s.history.isEmpty then s
  else
    let prev := s.history.getLastD ⟨[], []⟩
    { s with
      future := ⟨s.nodes, s.edges⟩ :: s.future
      nodes := prev.nodes
      edges := prev.edges
      history := s.history.dropLast
      selectedNode := none }

/-- `handleRedo` (lines 155-163): no-op on empty future; otherwise the head
of `future` becomes current, the pre-redo `{nodes, edges}` is appended to
`history`, and the selection is cleared. -/
def handleRedo (s : FlowState) : FlowState :=
  match s.future with
  | [] => s
  | next :: rest =>
    { s with
      history := s.history ++ [⟨s.nodes, s.edges⟩]
      nodes := next.nodes
      edges := next.edges
      future := rest
      selectedNode := none }

/-- `handleDragNode(id, dx, dy)` (lines 183-190): translate the matching
node's position by the delta; other nodes are untouched. -/
def handleDragNode (id : String) (dx dy : ℚ) (s : FlowState) : FlowState :=
  { s with nodes := s.nodes.map fun n =>
      if n.id = id then
        { n with position := ⟨n.position.x + dx, n.position.y + dy⟩ }
      else n }

/-- `handleCompleteConnect(targetId)` (lines 198-204): when a connection is
in progress and the target differs from the source, push history and append
the new edge; in every case clear `connecting`. -/
def handleCompleteConnect (targetId : String) (s : FlowState) : FlowState :=
  match s.connecting with
  | some c =>
    if c ≠ targetId then
      let s' := pushHistory s
      { s' with
        edges := s'.edges ++ [{ id := "e-" ++ c ++ "-" ++ targetId
                                fromId := c, toId := targetId }]
        connecting := none }
    else { s with connecting := none }
  | none => { s with connecting := none }

/-- `handleNodeUpdate(updatedNode)` (lines 302-309): push history, then
replace the node whose id matches. -/
def handleNodeUpdate (updatedNode : Node) (s : FlowState) : FlowState :=
  let s' := pushHistory s
  { s' with nodes := s'.nodes.map fun n =>
      if n.id = updatedNode.id then updatedNode else n }

/-- `handleWheel` (lines 276-280): multiply `k` by `1.08` when `deltaY < 0`
and by `0.92` otherwise, clamped into `[0.2, 2.5]` via
`Math.max(0.2, Math.min(2.5, _))`. -/
def handleWheel (deltaY : ℚ) (s : FlowState) : FlowState :=
  let scale : ℚ :=
    max 0.2 (min 2.5 (s.transform.k * (if deltaY < 0 then 1.08 else 0.92)))
  { s with transform := { s.transform with k := scale } }

/-- A keyboard event, as far as `handleKeyDown` inspects it. -/
structure KeyEvent where
  ctrlKey : Bool
  key : String
deriving Repr, DecidableEq

/-- `handleKeyDown` (lines 319-335): ignored while focus is in a text input;
Ctrl+Z undoes, Ctrl+Y redoes; Delete with a node selected pushes history,
removes the node, cascades removal of every edge touching it, and clears
the selection. -/
def handleKeyDown (inInput : Bool) (e : KeyEvent) (s : FlowState) : FlowState :=
  if inInput then s
  else if e.ctrlKey && e.key == "z" then handleUndo s
  else if e.ctrlKey && e.key == "y" then handleRedo s
  else if e.key == "Delete" then
    match s.selectedNode with
    | some sel =>
      let s' := pushHistory s
      { s' with
        nodes := s'.nodes.filter fun n => n.id != sel
        edges := s'.edges.filter fun ed => ed.fromId != sel && ed.toId != sel
        selectedNode := none }
    | none => s
  else s

/-- `getRelativeCoords` (lines 23-29): client coordinates minus the canvas
bounding-box origin `(ox, oy)`. -/
def getRelativeCoords (clientX clientY ox oy : ℚ) : ℚ × ℚ :=
  (clientX - ox, clientY - oy)

/-- The offset recorded by `handleNodeMouseDown` (lines 216-219):
`mouse / k - node.position`, where `mouse` is origin-relative.  Note the pan
offset `{x, y}` is not subtracted. -/
def dragStartOffset (t : Transform) (mouse : ℚ × ℚ) (p : Pos) : Pos :=
  ⟨mouse.1 / t.k - p.x, mouse.2 / t.k - p.y⟩

/-- The position computed by `handleNodeDrag` (lines 229-231):
`mouse / k - offset`. -/
def dragMovePos (t : Transform) (mouse : ℚ × ℚ) (off : Pos) : Pos :=
  ⟨mouse.1 / t.k - off.x, mouse.2 / t.k - off.y⟩

/-- One `mousemove` tick of `handleNodeDrag` (lines 224-240): set the dragged
node's position from the pointer; `transform` and the offset are the values
captured when the listener was attached, the node list is the current one
(functional `setNodes`). -/
def applyMove (id : String) (t : Transform) (ox oy : ℚ) (off : Pos)
    (s : FlowState) (client : ℚ × ℚ) : FlowState :=
  { s with nodes := s.nodes.map fun n =>
      if n.id = id then
        { n with position :=
            dragMovePos t (getRelativeCoords client.1 client.2 ox oy) off }
      else n }

/-- A whole drag gesture: `handleNodeMouseDown` at `downClient` (computing
the offset from the node found by id; `none` when the id is absent and the
JS would fault on `node.position`), the `mousemove` ticks in `moves`, then
`handleNodeMouseUp` (lines 242-248).  The mouse-up listener was attached at
mouse-down time, so the `pushHistory` closure it invokes captured the
pre-drag `nodes`/`edges` of `s₀` — React state closures capture render-time
values. -/
def dragGesture (s₀ : FlowState) (id : String) (ox oy : ℚ)
    (downClient : ℚ × ℚ) (moves : List (ℚ × ℚ)) : Option FlowState :=
  (s₀.nodes.find? fun n => n.id == id).map fun node =>
    let off := dragStartOffset s₀.transform
      (getRelativeCoords downClient.1 downClient.2 ox oy) node.position
    let s₁ := moves.foldl (applyMove id s₀.transform ox oy off) s₀
    pushHistoryWith ⟨s₀.nodes, s₀.edges⟩ s₁

/-- Screen → logical conversion as written in `InProgressEdge`
(lines 511-514): subtract the canvas origin and the pan offset, divide
by `k`. -/
def toLogical (ox oy : ℚ) (t : Transform) (p : ℚ × ℚ) : ℚ × ℚ :=
  ((p.1 - ox - t.x) / t.k, (p.2 - oy - t.y) / t.k)

/-- Logical → screen conversion: the render transform
`translate(x, y) scale(k)` applied inside the canvas (lines 367-371),
re-offset by the canvas origin. -/
def toScreen (ox oy : ℚ) (t : Transform) (l : ℚ × ℚ) : ℚ × ℚ :=
  (l.1 * t.k + t.x + ox, l.2 * t.k + t.y + oy)

/-! Concrete states used by the witnesses below. -/

/-- The result of dragging the start node to client `(13, 14)` after a
mouse-down at client `(10, 10)` with canvas origin `(0, 0)`. -/
def c1Result : FlowState :=
  { nodes := [{ startNode with position := ⟨223, 174⟩ }]
    edges := [], selectedNode := none, connecting := none
    history := [⟨[startNode], []⟩], future := []
    transform := { x := 0, y := 0, k := 1 } }

/-- A state with one history entry, for exercising undo. -/
def undoState : FlowState :=
  { initialState with history := [⟨[], []⟩] }

/-- A state with the start node selected and one outgoing edge. -/
def delState : FlowState :=
  { initialState with
    selectedNode := some "node-0"
    edges := [{ id := "e-node-0-node-1", fromId := "node-0", toId := "node-1" }] }

/-- A state with a connect gesture in progress from the start node. -/
def connState : FlowState :=
  { initialState with connecting := some "node-0" }

/-- A state whose selected id `node-9` names no node, while a dangling edge
still references it. -/
def danglingState : FlowState :=
  { nodes := [startNode]
    edges := [{ id := "e-node-9-node-0", fromId := "node-9", toId := "node-0" }]
    selectedNode := some "node-9", connecting := none
    history := [], future := [], transform := { x := 0, y := 0, k := 1 } }

/-- A state whose selected id `node-9` names no node and no edge mentions
it. -/
def noEdgeState : FlowState :=
  { initialState with selectedNode := some "node-9" }

/-- A node carrying the unknown id `node-9`. -/
def ghostNode : Node :=
  { id := "node-9", type := "default", position := ⟨0, 0⟩
    data := { label := "Ghost" } }

/-- A state with both one past and one future snapshot. -/
def histState : FlowState :=
  { initialState with history := [⟨[], []⟩], future := [⟨[], []⟩] }

/-! Helper lemmas. -/

/-- Pointer-move ticks only touch the node list: `history`, `edges` and
`future` pass through a fold of `applyMove` unchanged. -/
theorem foldl_applyMove_frame (id : String) (t : Transform) (ox oy : ℚ)
    (off : Pos) (moves : List (ℚ × ℚ)) (s : FlowState) :
    (moves.foldl (applyMove id t ox oy off) s).history = s.history ∧
    (moves.foldl (applyMove id t ox oy off) s).edges = s.edges := by
  induction moves generalizing s with
  | nil => exact ⟨rfl, rfl⟩
  | cons m ms ih => exact ih (applyMove id t ox oy off s m)

/-- Mapping a guarded rewrite over a list none of whose members satisfy the
guard is the identity. -/
theorem map_ite_eq_self {α : Type} (l : List α) (f : α → α) (p : α → Prop)
    [DecidablePred p] (h : ∀ a ∈ l, ¬ p a) :
    (l.map fun a => if p a then f a else a) = l := by
  induction l with
  | nil => rfl
  | cons a t ih =>
    rw [List.map_cons, if_neg (h a (List.mem_cons_self a t)),
      ih fun b hb => h b (List.mem_cons_of_mem a hb)]

/-- The `Delete` branch of `handleKeyDown`, written out: with a node
selected and focus outside an input, it pushes the pre-delete snapshot,
filters the node and every edge touching it, and clears the selection. -/
theorem handleKeyDown_delete_eq (s : FlowState) (sel : String)
    (h : s.selectedNode = some sel) :
    handleKeyDown false ⟨false, "Delete"⟩ s =
      { s with
        nodes := s.nodes.filter fun n => n.id != sel
        edges := s.edges.filter fun ed => ed.fromId != sel && ed.toId != sel
        selectedNode := none
        history := s.history ++ [⟨s.nodes, s.edges⟩]
        future := [] } := by
  simp [handleKeyDown, h, pushHistory, pushHistoryWith]

/-! Claim theorems. -/

/-- Claim C1: every mutating gesture records the graph state from strictly
before the mutation that motivated it.  In particular a node-drag gesture
pushes exactly one snapshot, at pointer-up, and that snapshot is the
pre-drag `{nodes, edges}` (the mouse-up listener's `pushHistory` closure
captured them at mouse-down), so one undo restores the pre-drag positions;
likewise label update, Delete-key and connect completion push the
pre-mutation snapshot. -/
theorem c1_snapshot_precedes_mutation (s₀ : FlowState) (id : String)
    (ox oy : ℚ) (down : ℚ × ℚ) (moves : List (ℚ × ℚ)) (s' : FlowState)
    (h : dragGesture s₀ id ox oy down moves = some s') :
    s'.history = s₀.history ++ [⟨s₀.nodes, s₀.edges⟩] ∧
    (handleUndo s').nodes = s₀.nodes ∧
    (handleUndo s').edges = s₀.edges ∧
    (∀ (un : Node) (s : FlowState),
      (handleNodeUpdate un s).history = s.history ++ [⟨s.nodes, s.edges⟩]) ∧
    (∀ (s : FlowState) (sel : String), s.selectedNode = some sel →
      (handleKeyDown false ⟨false, "Delete"⟩ s).history
        = s.history ++ [⟨s.nodes, s.edges⟩]) ∧
    (∀ (s : FlowState) (c t : String), s.connecting = some c → c ≠ t →
      (handleCompleteConnect t s).history
        = s.history ++ [⟨s.nodes, s.edges⟩]) := by
  simp only [dragGesture, Option.map_eq_some'] at h
  obtain ⟨node, hfind, hs'⟩ := h
  subst hs'
  have frame := foldl_applyMove_frame id s₀.transform ox oy
    (dragStartOffset s₀.transform (getRelativeCoords down.1 down.2 ox oy)
      node.position) moves s₀
  refine ⟨?_, ?_, ?_, ?_, ?_, ?_⟩
  · simp [pushHistoryWith, frame.1]
  · simp [handleUndo, pushHistoryWith, frame.1, List.isEmpty_iff,
      List.getLastD_concat]
  · simp [handleUndo, pushHistoryWith, frame.1, List.isEmpty_iff,
      List.getLastD_concat]
  · intro un s
    simp [handleNodeUpdate, pushHistory, pushHistoryWith]
  · intro s sel hsel
    simp [handleKeyDown, hsel, pushHistory, pushHistoryWith]
  · intro s c t hc hne
    simp [handleCompleteConnect, hc, hne, pushHistory, pushHistoryWith]

/-- Witness for C1: dragging the start node from client `(10, 10)` to
`(13, 14)` records the pre-drag snapshot, and one undo restores the
pre-drag node list. -/
theorem c1_witness :
    dragGesture initialState "node-0" 0 0 (10, 10) [(13, 14)] = some c1Result ∧
    c1Result.history = initialState.history
      ++ [⟨initialState.nodes, initialState.edges⟩] ∧
    (handleUndo c1Result).nodes = initialState.nodes ∧
    (handleUndo c1Result).edges = initialState.edges := by
  have hdrag : dragGesture initialState "node-0" 0 0 (10, 10) [(13, 14)]
      = some c1Result := by
    norm_num [dragGesture, initialState, startNode, applyMove, dragStartOffset,
      dragMovePos, getRelativeCoords, pushHistoryWith, c1Result, List.find?]
  have H := c1_snapshot_precedes_mutation initialState "node-0" 0 0 (10, 10)
    [(13, 14)] c1Result hdrag
  exact ⟨hdrag, H.1, H.2.1, H.2.2.1⟩

/-- Claim C2: with a non-empty past stack, one undo installs the most
recent past snapshot as the current `{nodes, edges}` and conses the
pre-undo `{nodes, edges}` onto the future stack; an immediate redo restores
`{nodes, edges}` exactly. -/
theorem c2_undo_redo_inverse (s : FlowState) (h : s.history ≠ []) :
    (handleUndo s).nodes = (s.history.getLastD ⟨[], []⟩).nodes ∧
    (handleUndo s).edges = (s.history.getLastD ⟨[], []⟩).edges ∧
    (handleUndo s).future = ⟨s.nodes, s.edges⟩ :: s.future ∧
    (handleRedo (handleUndo s)).nodes = s.nodes ∧
    (handleRedo (handleUndo s)).edges = s.edges := by
  rcases List.eq_nil_or_concat s.history with hnil | ⟨L, b, hLb⟩
  · exact absurd hnil h
  · rw [List.concat_eq_append] at hLb
    simp [handleUndo, handleRedo, hLb, List.isEmpty_iff, List.getLastD_concat,
      List.dropLast_concat]

/-- Witness for C2 at a state with one past snapshot. -/
theorem c2_witness :
    undoState.history ≠ [] ∧
    ((handleUndo undoState).nodes = (undoState.history.getLastD ⟨[], []⟩).nodes ∧
     (handleUndo undoState).edges = (undoState.history.getLastD ⟨[], []⟩).edges ∧
     (handleUndo undoState).future
        = ⟨undoState.nodes, undoState.edges⟩ :: undoState.future ∧
     (handleRedo (handleUndo undoState)).nodes = undoState.nodes ∧
     (handleRedo (handleUndo undoState)).edges = undoState.edges) := by
  have hne : undoState.history ≠ [] := by simp [undoState, initialState]
  exact ⟨hne, c2_undo_redo_inverse undoState hne⟩

/-- Claim C3: every `pushHistory` empties the future stack, so a redo
right after any recorded mutation — and more generally at any state with an
empty future stack — changes nothing at all. -/
theorem c3_push_clears_future (s s' : FlowState) (h : s'.future = []) :
    (pushHistory s).future = [] ∧
    handleRedo (pushHistory s) = pushHistory s ∧
    (∀ un : Node, handleRedo (handleNodeUpdate un s) = handleNodeUpdate un s) ∧
    handleRedo s' = s' := by
  refine ⟨rfl, rfl, fun un => rfl, ?_⟩
  simp [handleRedo, h]

/-- Witness for C3 at concrete states. -/
theorem c3_witness :
    initialState.future = [] ∧
    (pushHistory initialState).future = [] ∧
    handleRedo (pushHistory initialState) = pushHistory initialState ∧
    handleRedo (handleNodeUpdate startNode initialState)
      = handleNodeUpdate startNode initialState ∧
    handleRedo initialState = initialState := by
  have H := c3_push_clears_future initialState initialState rfl
  exact ⟨rfl, H.1, H.2.1, H.2.2.1 startNode, H.2.2.2⟩

/-- Counterexample for C4: a zoom-out notch multiplies `k` by `0.92`, not
by `1 / 1.08`: from `k = 1` the code yields `0.92`, while the claim
predicts `1 * (1 / 1.08)` (no clamping is involved at this input). -/
theorem c4_counterexample :
    (handleWheel 1 initialState).transform.k = initialState.transform.k * 0.92 ∧
    (handleWheel 1 initialState).transform.k
      ≠ initialState.transform.k * (1 / 1.08) := by
  norm_num [handleWheel, initialState]

/-- Claim C4 (amended): a wheel event multiplies `k` by `1.08` when
`deltaY < 0` and by `0.92` otherwise, clamping the product into
`[0.2, 2.5]`; the resulting `k` always lies in `[0.2, 2.5]`, and whenever
the product is already in range no clamping happens. -/
theorem c4_wheel_clamped_factors (s : FlowState) (dy : ℚ) :
    (0.2 ≤ (handleWheel dy s).transform.k ∧
     (handleWheel dy s).transform.k ≤ 2.5) ∧
    (dy < 0 → 0.2 ≤ s.transform.k * 1.08 → s.transform.k * 1.08 ≤ 2.5 →
      (handleWheel dy s).transform.k = s.transform.k * 1.08) ∧
    (¬ dy < 0 → 0.2 ≤ s.transform.k * 0.92 → s.transform.k * 0.92 ≤ 2.5 →
      (handleWheel dy s).transform.k = s.transform.k * 0.92) := by
  simp only [handleWheel]
  refine ⟨⟨le_max_left _ _, ?_⟩, ?_, ?_⟩
  · exact max_le (by norm_num) (min_le_left _ _)
  · intro hdy h1 h2
    rw [if_pos hdy, min_eq_right h2, max_eq_right h1]
  · intro hdy h1 h2
    rw [if_neg hdy, min_eq_right h2, max_eq_right h1]

/-- Witness for C4 at `k = 1`: a zoom-in notch lands on `1.08` and a
zoom-out notch on `0.92`, both unclamped. -/
theorem c4_witness :
    ((-1 : ℚ) < 0 ∧ 0.2 ≤ initialState.transform.k * 1.08 ∧
      initialState.transform.k * 1.08 ≤ 2.5 ∧
      ¬ (1 : ℚ) < 0 ∧ 0.2 ≤ initialState.transform.k * 0.92 ∧
      initialState.transform.k * 0.92 ≤ 2.5) ∧
    (handleWheel (-1) initialState).transform.k
      = initialState.transform.k * 1.08 ∧
    (handleWheel 1 initialState).transform.k
      = initialState.transform.k * 0.92 ∧
    0.2 ≤ (handleWheel 1 initialState).transform.k ∧
    (handleWheel 1 initialState).transform.k ≤ 2.5 := by
  have h1 : (0.2 : ℚ) ≤ initialState.transform.k * 1.08 := by
    norm_num [initialState]
  have h2 : initialState.transform.k * 1.08 ≤ 2.5 := by
    norm_num [initialState]
  have h3 : (0.2 : ℚ) ≤ initialState.transform.k * 0.92 := by
    norm_num [initialState]
  have h4 : initialState.transform.k * 0.92 ≤ 2.5 := by
    norm_num [initialState]
  have Hin := c4_wheel_clamped_factors initialState (-1)
  have Hout := c4_wheel_clamped_factors initialState 1
  exact ⟨⟨by norm_num, h1, h2, by norm_num, h3, h4⟩,
    Hin.2.1 (by norm_num) h1 h2, Hout.2.2 (by norm_num) h3 h4,
    Hout.1.1, Hout.1.2⟩

/-- Claim C5: after the Delete-key handler runs with node `sel` selected,
no node with that id remains, no remaining edge references it as source or
target, and every other node survives. -/
theorem c5_cascade_delete (s : FlowState) (sel : String)
    (h : s.selectedNode = some sel) :
    (∀ n ∈ (handleKeyDown false ⟨false, "Delete"⟩ s).nodes, n.id ≠ sel) ∧
    (∀ ed ∈ (handleKeyDown false ⟨false, "Delete"⟩ s).edges,
      ed.fromId ≠ sel ∧ ed.toId ≠ sel) ∧
    (∀ n ∈ s.nodes, n.id ≠ sel →
      n ∈ (handleKeyDown false ⟨false, "Delete"⟩ s).nodes) := by
  rw [handleKeyDown_delete_eq s sel h]
  refine ⟨?_, ?_, ?_⟩
  · intro n hn
    have := List.mem_filter.mp hn
    simpa [bne_iff_ne] using this.2
  · intro ed hed
    have := List.mem_filter.mp hed
    simpa [bne_iff_ne] using this.2
  · intro n hn hne
    exact List.mem_filter.mpr ⟨hn, by simpa [bne_iff_ne] using hne⟩

/-- Witness for C5: deleting the selected start node, which has one
outgoing edge, removes both. -/
theorem c5_witness :
    delState.selectedNode = some "node-0" ∧
    ((∀ n ∈ (handleKeyDown false ⟨false, "Delete"⟩ delState).nodes,
        n.id ≠ "node-0") ∧
     (∀ ed ∈ (handleKeyDown false ⟨false, "Delete"⟩ delState).edges,
        ed.fromId ≠ "node-0" ∧ ed.toId ≠ "node-0") ∧
     (∀ n ∈ delState.nodes, n.id ≠ "node-0" →
        n ∈ (handleKeyDown false ⟨false, "Delete"⟩ delState).nodes)) :=
  ⟨rfl, c5_cascade_delete delState "node-0" rfl⟩

/-- Counterexample for C6: at transform `{x := 5, y := 0, k := 1}`, canvas
origin `(0, 0)` and mouse-down at client `(10, 0)` on a node at the
origin, the recorded offset is `(10, 0)`, not the claimed
`toLogical(p) - nodeOrigin = (5, 0)`: the handler never subtracts the pan
offset. -/
theorem c6_counterexample :
    dragStartOffset ⟨5, 0, 1⟩ (getRelativeCoords 10 0 0 0) ⟨0, 0⟩ ≠
      ⟨(toLogical 0 0 ⟨5, 0, 1⟩ (10, 0)).1 - 0,
       (toLogical 0 0 ⟨5, 0, 1⟩ (10, 0)).2 - 0⟩ := by
  norm_num [dragStartOffset, getRelativeCoords, toLogical, Pos.mk.injEq]

/-- Claim C6 (amended): the recorded drag offset divides the
origin-relative pointer position by `k` and subtracts the node origin —
the pan offset `{x, y}` is *not* subtracted: `off = ((sx - ox)/k - nx,
(sy - oy)/k - ny)`.  Because `handleNodeDrag` applies the same conversion,
the node does not jump (re-evaluating at the mouse-down pointer returns the
node's origin) and every move tick translates the node by the pointer delta
divided by `k`. -/
theorem c6_offset_no_pan (t : Transform) (ox oy sx sy : ℚ) (p : Pos)
    (hk : t.k ≠ 0) :
    dragStartOffset t (getRelativeCoords sx sy ox oy) p =
      ⟨(sx - ox) / t.k - p.x, (sy - oy) / t.k - p.y⟩ ∧
    dragMovePos t (getRelativeCoords sx sy ox oy)
      (dragStartOffset t (getRelativeCoords sx sy ox oy) p) = p ∧
    (∀ sx2 sy2 : ℚ,
      dragMovePos t (getRelativeCoords sx2 sy2 ox oy)
        (dragStartOffset t (getRelativeCoords sx sy ox oy) p) =
      ⟨p.x + (sx2 - sx) / t.k, p.y + (sy2 - sy) / t.k⟩) := by
  refine ⟨rfl, ?_, ?_⟩
  · obtain ⟨px, py⟩ := p
    simp only [dragMovePos, dragStartOffset, getRelativeCoords, Pos.mk.injEq]
    constructor <;> ring
  · intro sx2 sy2
    simp only [dragMovePos, dragStartOffset, getRelativeCoords, Pos.mk.injEq]
    constructor <;> (field_simp; ring)

/-- Witness for C6 at `k = 2`, pan `(5, 0)`. -/
theorem c6_witness :
    (Transform.mk 5 0 2).k ≠ 0 ∧
    (dragStartOffset (Transform.mk 5 0 2) (getRelativeCoords 10 0 0 0) ⟨7, 8⟩ =
      ⟨(10 - 0) / (Transform.mk 5 0 2).k - 7,
       (0 - 0) / (Transform.mk 5 0 2).k - 8⟩ ∧
     dragMovePos (Transform.mk 5 0 2) (getRelativeCoords 10 0 0 0)
       (dragStartOffset (Transform.mk 5 0 2) (getRelativeCoords 10 0 0 0)
         ⟨7, 8⟩) = ⟨7, 8⟩ ∧
     (∀ sx2 sy2 : ℚ,
       dragMovePos (Transform.mk 5 0 2) (getRelativeCoords sx2 sy2 0 0)
         (dragStartOffset (Transform.mk 5 0 2) (getRelativeCoords 10 0 0 0)
           ⟨7, 8⟩) =
       ⟨7 + (sx2 - 10) / (Transform.mk 5 0 2).k,
        8 + (sy2 - 0) / (Transform.mk 5 0 2).k⟩)) := by
  have hk : (Transform.mk 5 0 2).k ≠ 0 := by norm_num
  exact ⟨hk, c6_offset_no_pan ⟨5, 0, 2⟩ 0 0 10 0 ⟨7, 8⟩ hk⟩

/-- Claim C7: completing a connect gesture onto its own source node changes
nothing except clearing the in-progress connection — no edge is appended
and no history snapshot is recorded. -/
theorem c7_self_loop_rejected (s : FlowState) (x : String)
    (h : s.connecting = some x) :
    handleCompleteConnect x s = { s with connecting := none } := by
  simp [handleCompleteConnect, h]

/-- Witness for C7: releasing a connect gesture from the start node back
onto the start node only clears `connecting`. -/
theorem c7_witness :
    connState.connecting = some "node-0" ∧
    handleCompleteConnect "node-0" connState
      = { connState with connecting := none } :=
  ⟨rfl, c7_self_loop_rejected connState "node-0" rfl⟩

/-- Counterexample for C8: with id `node-9` absent from the node list but a
dangling edge still referencing it, the Delete-key handler with `node-9`
selected removes that edge — the edge list is not left unchanged. -/
theorem c8_counterexample :
    (∀ n ∈ danglingState.nodes, n.id ≠ "node-9") ∧
    (handleKeyDown false ⟨false, "Delete"⟩ danglingState).edges
      ≠ danglingState.edges := by
  constructor
  · simp [danglingState, startNode]
  · simp [handleKeyDown, danglingState, startNode, pushHistory,
      pushHistoryWith]

/-- Claim C8 (amended): for a node id absent from the node list, the drag
update and the label save leave the node and edge lists unchanged; the
Delete-key handler leaves the node list unchanged and filters out exactly
the edges referencing the id, so it also leaves the edge list unchanged
whenever no (dangling) edge references the absent id. -/
theorem c8_unknown_id_noop (s : FlowState) (id : String) (dx dy : ℚ)
    (un : Node) (hid : ∀ n ∈ s.nodes, n.id ≠ id) (hun : un.id = id) :
    (handleDragNode id dx dy s).nodes = s.nodes ∧
    (handleDragNode id dx dy s).edges = s.edges ∧
    (handleNodeUpdate un s).nodes = s.nodes ∧
    (handleNodeUpdate un s).edges = s.edges ∧
    (s.selectedNode = some id →
      (handleKeyDown false ⟨false, "Delete"⟩ s).nodes = s.nodes ∧
      ((∀ ed ∈ s.edges, ed.fromId ≠ id ∧ ed.toId ≠ id) →
        (handleKeyDown false ⟨false, "Delete"⟩ s).edges = s.edges)) := by
  refine ⟨?_, rfl, ?_, rfl, ?_⟩
  · exact map_ite_eq_self s.nodes _ (fun n => n.id = id) fun n hn =>
      hid n hn
  · show (s.nodes.map fun n => if n.id = un.id then un else n) = s.nodes
    exact map_ite_eq_self s.nodes _ (fun n => n.id = un.id) fun n hn => by
      rw [hun]; exact hid n hn
  · intro hsel
    rw [handleKeyDown_delete_eq s id hsel]
    constructor
    · exact List.filter_eq_self.mpr fun n hn => by
        simpa [bne_iff_ne] using hid n hn
    · intro hed
      exact List.filter_eq_self.mpr fun ed hed' => by
        simpa [bne_iff_ne] using hed ed hed'

/-- Witness for C8: with the unknown id `node-9` selected and no edge
referencing it, drag, label save and delete all leave the node and edge
lists unchanged. -/
theorem c8_witness :
    ((∀ n ∈ noEdgeState.nodes, n.id ≠ "node-9") ∧ ghostNode.id = "node-9") ∧
    ((handleDragNode "node-9" 1 2 noEdgeState).nodes = noEdgeState.nodes ∧
     (handleDragNode "node-9" 1 2 noEdgeState).edges = noEdgeState.edges ∧
     (handleNodeUpdate ghostNode noEdgeState).nodes = noEdgeState.nodes ∧
     (handleNodeUpdate ghostNode noEdgeState).edges = noEdgeState.edges ∧
     (noEdgeState.selectedNode = some "node-9" →
       (handleKeyDown false ⟨false, "Delete"⟩ noEdgeState).nodes
          = noEdgeState.nodes ∧
       ((∀ ed ∈ noEdgeState.edges, ed.fromId ≠ "node-9" ∧ ed.toId ≠ "node-9") →
         (handleKeyDown false ⟨false, "Delete"⟩ noEdgeState).edges
            = noEdgeState.edges))) := by
  have hid : ∀ n ∈ noEdgeState.nodes, n.id ≠ "node-9" := by
    simp [noEdgeState, initialState, startNode]
  exact ⟨⟨hid, rfl⟩, c8_unknown_id_noop noEdgeState "node-9" 1 2 ghostNode hid rfl⟩

/-- Claim C9: for every transform with `k ∈ [0.2, 2.5]`, converting a
screen point to logical coordinates and back recovers the point exactly
(over exact rational arithmetic). -/
theorem c9_round_trip (ox oy : ℚ) (t : Transform) (p : ℚ × ℚ)
    (h1 : 0.2 ≤ t.k) (h2 : t.k ≤ 2.5) :
    toScreen ox oy t (toLogical ox oy t p) = p := by
  have hk : t.k ≠ 0 := by
    have h0 : (0 : ℚ) < 0.2 := by norm_num
    exact ne_of_gt (lt_of_lt_of_le h0 h1)
  obtain ⟨p1, p2⟩ := p
  simp only [toScreen, toLogical, Prod.mk.injEq]
  constructor <;> (field_simp)

/-- Witness for C9 at transform `{x := 3, y := 4, k := 2}` and screen point
`(5, 6)`. -/
theorem c9_witness :
    ((0.2 : ℚ) ≤ (Transform.mk 3 4 2).k ∧ (Transform.mk 3 4 2).k ≤ 2.5) ∧
    toScreen 1 2 (Transform.mk 3 4 2)
      (toLogical 1 2 (Transform.mk 3 4 2) (5, 6)) = (5, 6) := by
  have h1 : (0.2 : ℚ) ≤ (Transform.mk 3 4 2).k := by norm_num
  have h2 : (Transform.mk 3 4 2).k ≤ 2.5 := by norm_num
  exact ⟨⟨h1, h2⟩, c9_round_trip 1 2 ⟨3, 4, 2⟩ (5, 6) h1 h2⟩

/-- Claim C10: whenever undo (non-empty past) or redo (non-empty future)
actually swaps state it clears the node selection, and in every case both
leave the pan/zoom transform untouched. -/
theorem c10_undo_redo_frame (s : FlowState) :
    (s.history ≠ [] → (handleUndo s).selectedNode = none) ∧
    (handleUndo s).transform = s.transform ∧
    (s.future ≠ [] → (handleRedo s).selectedNode = none) ∧
    (handleRedo s).transform = s.transform := by
  refine ⟨?_, ?_, ?_, ?_⟩
  · intro h
    have hne : s.history.isEmpty = false := by
      simpa [List.isEmpty_iff] using h
    simp [handleUndo, hne]
  · unfold handleUndo
    split <;> rfl
  · intro h
    cases hf : s.future with
    | nil => exact absurd hf h
    | cons a t => simp [handleRedo, hf]
  · cases hf : s.future with
    | nil => simp [handleRedo, hf]
    | cons a t => simp [handleRedo, hf]

/-- Witness for C10 at a state with one past and one future snapshot. -/
theorem c10_witness :
    (histState.history ≠ [] ∧ histState.future ≠ []) ∧
    (handleUndo histState).selectedNode = none ∧
    (handleUndo histState).transform = histState.transform ∧
    (handleRedo histState).selectedNode = none ∧
    (handleRedo histState).transform = histState.transform := by
  have hh : histState.history ≠ [] := by simp [histState, initialState]
  have hf : histState.future ≠ [] := by simp [histState, initialState]
  have H := c10_undo_redo_frame histState
  exact ⟨⟨hh, hf⟩, H.1 hh, H.2.1, H.2.2.1 hf, H.2.2.2⟩

end Flowchart

